import Mathlib

/-!
Verification of the body-accumulation / decode-gate / asset-resolution core of
ESPAsyncWebServerDAV (files `src/AsyncJson.cpp` and `src/AsyncWebServerRequest.cpp`).

The C++ code is shallowly embedded:
* machine bytes are `Nat` values, truncated with `% 256` where the source
  stores them in a `uint8_t`, and 32-bit values are `Nat` below `2 ^ 32`;
* the per-request `_tempObject` slot is an `Option AsyncJsonResponseBuffer`;
* `calloc` of the buffer is modelled as a successful zero-initialised
  allocation (the out-of-memory branch of the source merely returns with the
  slot still empty, i.e. the same observable state as the over-limit branch);
* the ArduinoJson deserializer (external library, `ARDUINOJSON_VERSION_MAJOR`
  default branch, which consumes the pair `(content, length)`) is an opaque
  boolean-valued parameter `deserializeOk`;
* the filesystem abstraction (`FS`) is a structure of pure functions.
-/

/-! ## Data model: the accumulation buffer (struct `AsyncJsonResponseBuffer`) -/

/-- Embedding of the C struct `AsyncJsonResponseBuffer`: a `length` field (the
number of content bytes that may be written, excluding the reserved
null-terminator byte) and the content byte array, which is allocated with
`length + 1` bytes. -/
structure AsyncJsonResponseBuffer where
  length : Nat
  content : List Nat
deriving DecidableEq, Repr

/-- Embedding of `memcpy(buffer->content + index, data, len)` on a byte list:
overwrite `data.length` bytes of `c` starting at position `index`. -/
def writeBytes (c : List Nat) (index : Nat) (data : List Nat) : List Nat :=
  c.take index ++ data ++ c.drop (index + data.length)

/-- The guarded copy at the end of `AsyncCallbackJsonWebHandler::handleBody`
(`AsyncJson.cpp` lines 200-211): copy the chunk into the buffer only when
`buffer->length >= total && buffer->length >= index + len`; otherwise leave
the buffer untouched (the source logs and returns). -/
def copyChunk (buf : AsyncJsonResponseBuffer) (data : List Nat) (index total : Nat) :
    AsyncJsonResponseBuffer :=
  if buf.length ≥ total ∧ buf.length ≥ index + data.length then
    ⟨buf.length, writeBytes buf.content index data⟩
  else
    buf

/-- Embedding of `AsyncCallbackJsonWebHandler::handleBody` (`AsyncJson.cpp`
lines 171-213).  `tempObject` is the request's `_tempObject` slot before the
call; the result is the slot after the call.  On the first piece
(`index == 0`): an already-attached buffer makes the call a no-op; a total of
at least `_maxContentLength` leaves the request bufferless; otherwise a
zero-initialised buffer of `total` content bytes plus one terminator byte is
allocated with its `length` field set to `total`.  Every call then runs the
guarded copy when a buffer is attached. -/
def handleBody (hasOnRequest : Bool) (maxContentLength : Nat)
    (tempObject : Option AsyncJsonResponseBuffer)
    (data : List Nat) (index total : Nat) : Option AsyncJsonResponseBuffer :=
  if hasOnRequest then
    if index = 0 then
      match tempObject with
      | some _ => tempObject
      | none =>
        if total ≥ maxContentLength then
          none
        else
          some (copyChunk ⟨total, List.replicate (total + 1) 0⟩ data index total)
    else
      match tempObject with
      | some buf => some (copyChunk buf data index total)
      | none => none
  else
    tempObject

/-! ## The decode gate (`AsyncCallbackJsonWebHandler::handleRequest`) -/

/-- The externally observable action taken by the gate: dispatch the user
callback with an empty `JsonVariant` (the GET path), dispatch it with the
parsed document, or send a bare numeric status. -/
inductive GateAction where
  | dispatchEmpty : GateAction
  | dispatchParsed : GateAction
  | send : Nat → GateAction
deriving DecidableEq, Repr

/-- Result of one `handleRequest` call: the action taken, the `_tempObject`
slot after the call, how many times the gate itself called `free` on the
slot, and how many times the deserializer ran. -/
structure HandleRequestResult where
  action : GateAction
  tempObject : Option AsyncJsonResponseBuffer
  frees : Nat
  decodes : Nat
deriving DecidableEq, Repr

/-- Embedding of `AsyncCallbackJsonWebHandler::handleRequest` (`AsyncJson.cpp`
lines 120-169), following the default `ARDUINOJSON_VERSION_MAJOR` branch in
which the deserializer consumes `(buffer->content, buffer->length)`.
Control flow of the source: no callback registered sends 500; GET dispatches
an empty value immediately; a content length above `_maxContentLength` sends
413; with a buffer attached, a successful parse dispatches the value and
returns with the buffer still attached (the source comment defers the `free`
to the request destructor), a failed parse frees the buffer and falls through
to `send(400)`; with no buffer attached it sends 400. -/
def handleRequest (hasOnRequest : Bool) (isGet : Bool)
    (contentLength maxContentLength : Nat)
    (deserializeOk : List Nat → Nat → Bool)
    (tempObject : Option AsyncJsonResponseBuffer) : HandleRequestResult :=
  if hasOnRequest then
    if isGet then
      ⟨GateAction.dispatchEmpty, tempObject, 0, 0⟩
    else if contentLength > maxContentLength then
      ⟨GateAction.send 413, tempObject, 0, 0⟩
    else
      match tempObject with
      | some buffer =>
        if deserializeOk buffer.content buffer.length then
          ⟨GateAction.dispatchParsed, tempObject, 0, 1⟩
        else
          ⟨GateAction.send 400, none, 1, 1⟩
      | none => ⟨GateAction.send 400, none, 0, 0⟩
  else
    ⟨GateAction.send 500, tempObject, 0, 0⟩

/-! ## ETag rendering (`AsyncWebServerRequest::_getEtag`) -/

/-- The lookup table `static constexpr char hexChars[] = "0123456789ABCDEF"`. -/
def hexChars : List Char :=
  ['0', '1', '2', '3', '4', '5', '6', '7', '8', '9', 'A', 'B', 'C', 'D', 'E', 'F']

/-- C array indexing `hexChars[i]` (every index produced by the source is
below 16, so the default is never read). -/
def hexAt (i : Nat) : Char := hexChars.getD i '0'

/-- Embedding of `AsyncWebServerRequest::_getEtag`
(`AsyncWebServerRequest.cpp` lines 66-81): `memcpy` the four trailer bytes
into a little-endian `uint32_t` (the target is little-endian), then emit the
eight hex digits in the source's fixed order (`>> 4`, `>> 0`, `>> 12`,
`>> 8`, `>> 20`, `>> 16`, `>> 28`, `>> 24`, each masked with `0x0F` except
the `>> 28` one, which needs no mask on a 32-bit value), then the `'\0'`
terminator.  `& 0x0F` is `% 16`; the `uint8_t` width of each input byte is
`% 256`. -/
def getEtag (trailer : List Nat) : List Char :=
  let data : Nat :=
    trailer.getD 0 0 % 256 + trailer.getD 1 0 % 256 * 256 +
      trailer.getD 2 0 % 256 * 65536 + trailer.getD 3 0 % 256 * 16777216
  [hexAt (data >>> 4 % 16), hexAt (data % 16),
   hexAt (data >>> 12 % 16), hexAt (data >>> 8 % 16),
   hexAt (data >>> 20 % 16), hexAt (data >>> 16 % 16),
   hexAt (data >>> 28), hexAt (data >>> 24 % 16),
   Char.ofNat 0]

/-! ## Conditional asset resolution (`AsyncWebServerRequest::send(FS&, ...)`) -/

/-- A file handle as used by the resolver: its byte content.  `size()` is the
content length; `seek(p)` followed by `read(buf, 4)` yields
`(content.drop p).take 4` with the number of bytes actually read equal to
that list's length. -/
structure ModelFile where
  content : List Nat
deriving DecidableEq

/-- The filesystem abstraction used by `send(FS&, ...)`: `exists(path)` and
`open(path, read)` (`none` models a failed open). -/
structure ModelFS where
  fsExists : String → Bool
  openFile : String → Option ModelFile

/-- Observable outcome of `AsyncWebServerRequest::send(FS&, ...)`: the 304
short-circuit, a normal response built by `beginResponse(fs, path,
contentType, download, callback)`, or `send(404)`. -/
inductive SendResult where
  | notModified : SendResult
  | fileResponse : String → Bool → SendResult
  | notFound : SendResult
deriving DecidableEq, Repr

/-- The validator comparison performed inside the If-None-Match block of
`send(FS&, ...)` (`AsyncWebServerRequest.cpp` lines 26-47): open the gzip
variant; require a successful open and a size of at least 18; seek to 8 bytes
before the end and read 4 bytes (the CRC32 field of the gzip trailer);
require that exactly 4 bytes were read; render the ETag and compare it with
the client's If-None-Match value.  Any failed step falls through to the
normal response (modelled as `false`). -/
def etagMatches (fs : ModelFS) (gzPath : String) (inmValue : List Char) : Bool :=
  match fs.openFile gzPath with
  | some file =>
    if file.content.length ≥ 18 then
      let crcFromGzipTrailer := (file.content.drop (file.content.length - 8)).take 4
      if crcFromGzipTrailer.length = 4 then
        decide (inmValue = (getEtag crcFromGzipTrailer).take 8)
      else
        false
    else
      false
  | none => false

/-- Embedding of `AsyncWebServerRequest::send(FS &fs, const String &path,
const char *contentType, bool download, AwsTemplateProcessor callback)`
(`AsyncWebServerRequest.cpp` lines 21-55).  `hasINM` is
`hasHeader(T_INM)` and `inmValue` the header's value (the client validator,
compared against the 8 rendered hex characters).  The compressed variant is
`path + ".gz"`; `useCompressedVersion = !download && fs.exists(gzPath)`; a
matching validator on the compressed variant sends 304; otherwise the normal
response is sent when the plain path exists or the compressed version is in
use, and 404 when neither holds. -/
def requestSend (fs : ModelFS) (path : String) (download : Bool)
    (hasINM : Bool) (inmValue : List Char) : SendResult :=
  let gzPath := path ++ ".gz"
  let useCompressedVersion := !download && fs.fsExists gzPath
  if useCompressedVersion && hasINM && etagMatches fs gzPath inmValue then
    SendResult.notModified
  else if fs.fsExists path || useCompressedVersion then
    SendResult.fileResponse path download
  else
    SendResult.notFound

/-! ## Spec-side rendering algorithm (for the refinement claim C2) -/

/-- Modelled from the spec: the ChecksumTrailerReader of spec section 4.3
interprets "the 4 input bytes as a little-endian 32-bit value". -/
def specLEWord (t0 t1 t2 t3 : Nat) : Nat :=
  t0 + t1 * 2 ^ 8 + t2 * 2 ^ 16 + t3 * 2 ^ 24

/-- Modelled from the spec: extraction of the nibble whose low bit position
is `lo`, i.e. bits `[lo+3:lo]` of the word `w`. -/
def specNibble (w lo : Nat) : Nat := w / 2 ^ lo % 16

/-- Modelled from the spec (section 4.3 ChecksumTrailerReader algorithm):
emit 8 hex digits by extracting nibbles in the fixed order bits `[7:4]`,
`[3:0]`, `[15:12]`, `[11:8]`, `[23:20]`, `[19:16]`, `[31:28]`, `[27:24]` of
the little-endian 32-bit value, then append a terminator. -/
def specChecksumToken (t0 t1 t2 t3 : Nat) : List Char :=
  let w := specLEWord t0 t1 t2 t3
  [hexAt (specNibble w 4), hexAt (specNibble w 0),
   hexAt (specNibble w 12), hexAt (specNibble w 8),
   hexAt (specNibble w 20), hexAt (specNibble w 16),
   hexAt (specNibble w 28), hexAt (specNibble w 24),
   Char.ofNat 0]

/-! ## Shared helper lemmas -/

/-- When a buffer is attached and the source's copy guard fails, `handleBody`
leaves the slot exactly as it was (both the `index == 0` early return and the
failed-guard branch end without modifying anything). -/
theorem handleBody_attached_skip (maxContentLength : Nat)
    (buf : AsyncJsonResponseBuffer) (data : List Nat) (index total : Nat)
    (h : ¬(buf.length ≥ total ∧ buf.length ≥ index + data.length)) :
    handleBody true maxContentLength (some buf) data index total = some buf := by
  unfold handleBody copyChunk
  by_cases hi : index = 0
  · simp [hi]
  · simp [hi, h]

/-- C5: for every body-chunk call on a request with an attached buffer where
`chunkOffset + chunkLength` exceeds the buffer's declared length, no bytes
are written into the buffer — the slot (and the buffer content) is returned
unchanged, so no out-of-bounds write occurs. -/
theorem no_out_of_bounds_write (maxContentLength : Nat)
    (buf : AsyncJsonResponseBuffer) (data : List Nat) (index total : Nat)
    (hviol : buf.length < index + data.length) :
    handleBody true maxContentLength (some buf) data index total = some buf :=
  handleBody_attached_skip maxContentLength buf data index total (by omega)

/-- Witness for C5 at the concrete call `index = 1`, `len = 2` on a buffer of
declared length 2. -/
theorem no_out_of_bounds_write_witness :
    (⟨2, [7, 7, 0]⟩ : AsyncJsonResponseBuffer).length < 1 + [5, 5].length ∧
    handleBody true 16384 (some ⟨2, [7, 7, 0]⟩) [5, 5] 1 2 = some ⟨2, [7, 7, 0]⟩ :=
  ⟨by decide, no_out_of_bounds_write 16384 ⟨2, [7, 7, 0]⟩ [5, 5] 1 2 (by decide)⟩

/-- C7 counterexample: a size-violating chunk (`index + len = 6` exceeds the
declared length 4) does not release the partially written buffer — the call
returns with the very same buffer still attached to the request, reachable by
later calls, contradicting "aborts the in-flight request immediately and
releases the partial buffer". -/
theorem size_violation_keeps_buffer :
    handleBody true 16384 (some ⟨4, [1, 2, 0, 0, 0]⟩) [9, 9, 9] 3 4 =
      some ⟨4, [1, 2, 0, 0, 0]⟩ := by decide

/-- C7 amended: a size violation during chunk accumulation (a chunk whose
`offset + length` exceeds the buffer's declared length, or a buffer length
inconsistent with the declared total) skips the write, leaving the buffer
attached and unchanged; the request is not aborted and the buffer is not
released (release happens later, in the decode gate's failure path or in the
request destructor). -/
theorem size_violation_skips_write (maxContentLength : Nat)
    (buf : AsyncJsonResponseBuffer) (data : List Nat) (index total : Nat)
    (hviol : buf.length < total ∨ buf.length < index + data.length) :
    handleBody true maxContentLength (some buf) data index total = some buf :=
  handleBody_attached_skip maxContentLength buf data index total (by omega)

/-- Witness for the amended C7: a chunk whose declared total 6 exceeds the
attached buffer's length 4 is skipped and the buffer survives unchanged. -/
theorem size_violation_skips_write_witness :
    ((⟨4, [1, 2, 0, 0, 0]⟩ : AsyncJsonResponseBuffer).length < 6 ∨
      (⟨4, [1, 2, 0, 0, 0]⟩ : AsyncJsonResponseBuffer).length < 2 + [9].length) ∧
    handleBody true 16384 (some ⟨4, [1, 2, 0, 0, 0]⟩) [9] 2 6 = some ⟨4, [1, 2, 0, 0, 0]⟩ :=
  ⟨by decide, size_violation_skips_write 16384 ⟨4, [1, 2, 0, 0, 0]⟩ [9] 2 6 (by decide)⟩

/-- C6 counterexample: on the first chunk call with `totalDeclaredLength = 0`
the source still allocates (its only rejection test is
`total >= _maxContentLength`), producing a zero-capacity buffer — the claim
says a zero total must leave the request bufferless. -/
theorem zero_total_still_allocates :
    handleBody true 16384 none [] 0 0 = some ⟨0, [0]⟩ := by decide

/-- C6 amended: on the first chunk call of a request with no buffer yet
attached, a buffer is allocated if and only if `totalDeclaredLength` is
strictly below the configured maximum; in particular a zero total allocates a
zero-capacity buffer and a total equal to the maximum does not allocate. -/
theorem buffer_allocated_iff_total_lt_max (maxContentLength total : Nat)
    (data : List Nat) :
    (handleBody true maxContentLength none data 0 total).isSome ↔
      total < maxContentLength := by
  unfold handleBody
  by_cases h : total ≥ maxContentLength
  · simp [h]
  · simp [h]
    omega

/-- C9 counterexample: `handleBody` does not take the request method as an
input at all (the source never inspects it), so when body chunks are
delivered for a request — a GET request included — a buffer is allocated,
contradicting "no buffer allocation ever happens" for GET. -/
theorem body_chunk_allocates_regardless_of_method :
    handleBody true 16384 none [1, 2, 3] 0 3 = some ⟨3, [1, 2, 3, 0]⟩ := by decide

/-- C9 amended: the decode gate dispatches a GET request exactly once with an
empty/absent value, performs no decode, and leaves the `_tempObject` slot
untouched; but if body chunks are delivered for a GET, the accumulator does
allocate a buffer (released only by the request destructor), because
`handleBody` never inspects the method. -/
theorem get_dispatches_empty_untouched (contentLength maxContentLength : Nat)
    (deserializeOk : List Nat → Nat → Bool)
    (tempObject : Option AsyncJsonResponseBuffer) :
    handleRequest true true contentLength maxContentLength deserializeOk tempObject =
      ⟨GateAction.dispatchEmpty, tempObject, 0, 0⟩ := rfl

/-- C10: at the exact boundary `totalDeclaredLength = contentLength =
maxContentLength`, the accumulator declines to allocate (its test is
`total >= max`), the gate's payload-too-large test (`contentLength > max`)
does not fire, and the bufferless request is answered with status 400, not
413. -/
theorem boundary_total_equals_max (maxContentLength : Nat) (data : List Nat)
    (deserializeOk : List Nat → Nat → Bool) :
    handleBody true maxContentLength none data 0 maxContentLength = none ∧
    handleRequest true false maxContentLength maxContentLength deserializeOk none =
      ⟨GateAction.send 400, none, 0, 0⟩ := by
  constructor
  · unfold handleBody
    simp
  · unfold handleRequest
    simp

/-- C4 counterexample: on the decode-success exit path the gate performs no
release at all — the buffer stays attached to the request (the source defers
the `free` to the request destructor), contradicting "the accumulated body
buffer is released by the gate exactly once" on every exit path. -/
theorem gate_success_path_releases_nothing :
    (handleRequest true false 2 16384 (fun _ _ => true) (some ⟨2, [49, 50, 0]⟩)).frees = 0 ∧
    (handleRequest true false 2 16384 (fun _ _ => true) (some ⟨2, [49, 50, 0]⟩)).tempObject =
      some ⟨2, [49, 50, 0]⟩ := by
  constructor
  · rfl
  · rfl

/-- C4 amended: the gate frees the buffer at most once per call, and it frees
it exactly once precisely on the decode-failure exit path (the only path on
which an attached buffer is detached); on every other exit path (bodyless
dispatch, payload-too-large, no buffer attached, decode success, no handler
registered) the gate performs no release and any attached buffer remains for
the request destructor.  After the gate's one release the slot is empty, so
the gate never references a freed buffer.  The decode also runs at most once
per call. -/
theorem gate_release_discipline (hasOnRequest isGet : Bool)
    (contentLength maxContentLength : Nat)
    (deserializeOk : List Nat → Nat → Bool)
    (tempObject : Option AsyncJsonResponseBuffer) :
    (handleRequest hasOnRequest isGet contentLength maxContentLength
        deserializeOk tempObject).frees ≤ 1 ∧
    ((handleRequest hasOnRequest isGet contentLength maxContentLength
        deserializeOk tempObject).frees = 1 ↔
      tempObject ≠ none ∧
        (handleRequest hasOnRequest isGet contentLength maxContentLength
          deserializeOk tempObject).tempObject = none) ∧
    (handleRequest hasOnRequest isGet contentLength maxContentLength
        deserializeOk tempObject).decodes ≤ 1 := by
  unfold handleRequest
  cases hasOnRequest
  · simp [not_and_self_iff]
  · cases isGet
    · by_cases hcl : contentLength > maxContentLength
      · simp [hcl, not_and_self_iff]
      · rcases tempObject with _ | buf
        · simp [hcl]
        · by_cases hd : deserializeOk buf.content buf.length
          · simp [hcl, hd, not_and_self_iff]
          · simp [hcl, hd]
    · simp [not_and_self_iff]

/-- C3 counterexample: for the input bytes `[0x34, 0x12, 0xAB, 0xCD]` the
first two characters of the rendered token are not `"43"` — the source emits
the high nibble of byte 0 first (`>> 4` before `& 0x0F`), i.e. the plain hex
rendering of `0x34`, not its nibble swap. -/
theorem etag_first_pair_not_nibble_swapped :
    (getEtag [0x34, 0x12, 0xAB, 0xCD]).take 2 ≠ ['4', '3'] := by decide

/-- C3 amended: for the input bytes `[0x34, 0x12, 0xAB, 0xCD]` the first two
characters of the rendered token are `"34"` (the plain hex rendering of
`0x34`, high nibble first — the fixed order of section 4.3 emits bits
`[7:4]` before bits `[3:0]`); full literal tokens for this and two other
4-byte inputs. -/
theorem etag_literal_tokens :
    (getEtag [0x34, 0x12, 0xAB, 0xCD]).take 2 = ['3', '4'] ∧
    getEtag [0x34, 0x12, 0xAB, 0xCD] =
      ['3', '4', '1', '2', 'A', 'B', 'C', 'D', Char.ofNat 0] ∧
    getEtag [0x00, 0x00, 0x00, 0x00] =
      ['0', '0', '0', '0', '0', '0', '0', '0', Char.ofNat 0] ∧
    getEtag [0xDE, 0xAD, 0xBE, 0xEF] =
      ['D', 'E', 'A', 'D', 'B', 'E', 'E', 'F', Char.ofNat 0] :=
  ⟨by decide, by decide, by decide, by decide⟩

/-! ## C8: the 404 condition of the asset resolver -/

/-- A concrete filesystem on which only the compressed variant
`"/data.txt.gz"` exists (opening any file fails, which only matters for the
validator path). -/
def fsGzOnly : ModelFS :=
  ⟨fun p => p == "/data.txt.gz", fun _ => none⟩

/-- C8 counterexample: with `download = true` the resolver never selects the
compressed variant, so a request for `"/data.txt"` yields 404 even though the
compressed variant `"/data.txt.gz"` exists — contradicting "whenever at least
one variant exists, the result is never 404". -/
theorem notFound_despite_compressed_variant :
    requestSend fsGzOnly "/data.txt" true false [] = SendResult.notFound ∧
    fsGzOnly.fsExists ("/data.txt" ++ ".gz") = true := by
  constructor
  · rfl
  · rfl

/-- C8 amended: the resolver produces a "not found" (404) result if and only
if the plain path does not exist and the compressed variant is not usable —
that is, the compressed variant does not exist or download-forcing is
requested.  Whenever the plain path exists, or the compressed variant exists
and download is not forced, the result is a normal transfer or the
not-modified short-circuit, never 404. -/
theorem notFound_iff_no_usable_variant (fs : ModelFS) (path : String)
    (download hasINM : Bool) (inmValue : List Char) :
    requestSend fs path download hasINM inmValue = SendResult.notFound ↔
      fs.fsExists path = false ∧
        (download = true ∨ fs.fsExists (path ++ ".gz") = false) := by
  unfold requestSend
  cases hd : download <;> cases hp : fs.fsExists path <;>
    cases hg : fs.fsExists (path ++ ".gz") <;>
      simp [hd, hp, hg] <;> split <;> simp_all

/-- C2: for every 4-byte input, the rendered validation token equals the
token of the spec's fixed nibble-order algorithm — 8 hex digits obtained by
interpreting the 4 bytes as a little-endian 32-bit value and extracting
nibbles in the order bits `[7:4]`, `[3:0]`, `[15:12]`, `[11:8]`, `[23:20]`,
`[19:16]`, `[31:28]`, `[27:24]`, followed by a terminator; the token is a
pure function of the 4 input bytes. -/
theorem getEtag_refines_spec (t0 t1 t2 t3 : Nat)
    (h0 : t0 < 256) (h1 : t1 < 256) (h2 : t2 < 256) (h3 : t3 < 256) :
    getEtag [t0, t1, t2, t3] = specChecksumToken t0 t1 t2 t3 := by
  have hdiv : (t0 + t1 * 256 + t2 * 65536 + t3 * 16777216) / 268435456 < 16 :=
    Nat.div_lt_of_lt_mul (by omega)
  simp only [getEtag, specChecksumToken, specLEWord, specNibble,
    Nat.shiftRight_eq_div_pow]
  norm_num [Nat.mod_eq_of_lt h0, Nat.mod_eq_of_lt h1, Nat.mod_eq_of_lt h2,
    Nat.mod_eq_of_lt h3, Nat.mod_eq_of_lt hdiv]

/-- Witness for C2 at the concrete trailer bytes `[0x11, 0x22, 0x33, 0x44]`. -/
theorem getEtag_refines_spec_witness :
    getEtag [0x11, 0x22, 0x33, 0x44] = specChecksumToken 0x11 0x22 0x33 0x44 :=
  getEtag_refines_spec 0x11 0x22 0x33 0x44 (by decide) (by decide) (by decide) (by decide)

/-! ## C1: assembly of a valid chunk sequence -/

/-- A whole request body delivered as a list of `(chunkOffset, chunkData)`
calls: fold `handleBody` over the calls, starting from an empty
`_tempObject` slot, with the same `totalDeclaredLength` passed to every
call (as the connection layer does for one request). -/
def runChunks (maxContentLength total : Nat) (chunks : List (Nat × List Nat)) :
    Option AsyncJsonResponseBuffer :=
  chunks.foldl (fun st p => handleBody true maxContentLength st p.2 p.1 total) none

/-- In a non-overlapping increasing chunk sequence whose members respect the
bound `offset + length ≤ total`, the first offset plus the sum of all chunk
lengths stays within `total`. -/
theorem chain_head_le (total : Nat) :
    ∀ (a : Nat × List Nat) (l : List (Nat × List Nat)),
      List.Chain' (fun x y => x.1 + x.2.length ≤ y.1) (a :: l) →
      (∀ p ∈ a :: l, p.1 + p.2.length ≤ total) →
      a.1 + ((a :: l).map fun p => p.2.length).sum ≤ total := by
  intro a l
  induction l generalizing a with
  | nil =>
    intro _ hb
    have := hb a (by simp)
    simpa using this
  | cons b t ih =>
    intro hc hb
    have hab : a.1 + a.2.length ≤ b.1 := (List.chain'_cons.mp hc).1
    have hrec := ih b (List.chain'_cons.mp hc).2 (fun p hp => hb p (List.mem_cons_of_mem a hp))
    simp only [List.map_cons, List.sum_cons] at hrec ⊢
    omega

/-- Invariant of the accumulation loop once a buffer is attached: processing
the remaining chunks — non-overlapping, increasing, within bounds, starting
at or after the write position `off`, and filling the buffer exactly — turns
content `c` into the first `off` old bytes, then the concatenated chunk
data, then the old bytes from position `total` on (the reserved terminator
byte). -/
theorem runChunks_attached (maxContentLength total : Nat) :
    ∀ (l : List (Nat × List Nat)) (off : Nat) (c : List Nat),
      0 < off →
      c.length = total + 1 →
      off + (l.map fun p => p.2.length).sum = total →
      List.Chain' (fun x y => x.1 + x.2.length ≤ y.1) l →
      (∀ p ∈ l, p.1 + p.2.length ≤ total) →
      (∀ a ∈ l.head?, off ≤ a.1) →
      List.foldl (fun st p => handleBody true maxContentLength st p.2 p.1 total)
          (some ⟨total, c⟩) l =
        some ⟨total, c.take off ++ (l.map fun p => p.2).flatten ++ c.drop total⟩ := by
  intro l
  induction l with
  | nil =>
    intro off c hoff hc hsum _ _ _
    have : off = total := by simpa using hsum
    subst this
    simp [List.take_append_drop]
  | cons a t ih =>
    intro off c hoff hc hsum hchain hbounds hhead
    obtain ⟨o, d⟩ := a
    have hofle : off ≤ o := hhead (o, d) (by simp)
    have hbnd : o + d.length ≤ total := hbounds (o, d) (by simp)
    have hlo : o + ((o, d).2.length + (t.map fun p => p.2.length).sum) ≤ total := by
      have := chain_head_le total (o, d) t hchain hbounds
      simpa using this
    have hsum' : off + (d.length + (t.map fun p => p.2.length).sum) = total := by
      simpa using hsum
    have ho : o = off := by simp at hlo; omega
    subst ho
    have hstep : handleBody true maxContentLength (some ⟨total, c⟩) d o total =
        some ⟨total, writeBytes c o d⟩ := by
      unfold handleBody copyChunk
      have hne : ¬(o = 0) := by omega
      simp [hne, hbnd]
    have hoffc : o ≤ c.length := by omega
    have htklen : (c.take o ++ d).length = o + d.length := by
      simp [List.length_take]
      omega
    have hc' : (writeBytes c o d).length = total + 1 := by
      unfold writeBytes
      simp [List.length_take, List.length_drop]
      omega
    have hassoc : writeBytes c o d = (c.take o ++ d) ++ c.drop (o + d.length) := by
      unfold writeBytes
      simp [List.append_assoc]
    have htake : (writeBytes c o d).take (o + d.length) = c.take o ++ d := by
      rw [hassoc]
      exact List.take_left' htklen
    have hdrop : (writeBytes c o d).drop total = c.drop total := by
      rw [hassoc]
      have h1 : ((c.take o ++ d) ++ c.drop (o + d.length)).drop total =
          (((c.take o ++ d) ++ c.drop (o + d.length)).drop (o + d.length)).drop
            (total - (o + d.length)) := by
        rw [List.drop_drop]
        congr 1
        omega
      rw [h1, List.drop_left' htklen, List.drop_drop]
      congr 1
      omega
    have hrec := ih (o + d.length) (writeBytes c o d) (by omega) hc'
      (by omega) hchain.tail
      (fun p hp => hbounds p (List.mem_cons_of_mem _ hp))
      (by
        intro b hb
        have := (List.chain'_cons'.mp hchain).1 b hb
        simpa using this)
    simp only [List.foldl_cons, hstep]
    rw [hrec, htake, hdrop]
    simp [List.append_assoc]

/-- C1: for every sequence of body-chunk calls for one request whose offsets
are non-overlapping and in increasing order (`List.Chain'` of
`offset + length ≤ next offset`; the chunks being nonempty body slices, this
is exactly pairwise disjointness in increasing offset order), within bounds,
and whose lengths sum exactly to the declared total (below the configured
maximum, so that the buffer is allocated at all), after all calls the
accumulated buffer's first `total` bytes equal the concatenation of the
chunks in offset order. -/
theorem chunked_body_assembly (maxContentLength total : Nat)
    (chunks : List (Nat × List Nat))
    (hne : chunks ≠ [])
    (hdata : ∀ p ∈ chunks, p.2 ≠ ([] : List Nat))
    (hchain : List.Chain' (fun x y => x.1 + x.2.length ≤ y.1) chunks)
    (hbounds : ∀ p ∈ chunks, p.1 + p.2.length ≤ total)
    (hsum : (chunks.map fun p => p.2.length).sum = total)
    (hmax : total < maxContentLength) :
    ∃ buf, runChunks maxContentLength total chunks = some buf ∧
      buf.length = total ∧
      buf.content.take total = (chunks.map fun p => p.2).flatten := by
  obtain ⟨⟨o, d⟩, t, rfl⟩ := List.exists_cons_of_ne_nil hne
  have hbnd0 : o + d.length ≤ total := hbounds (o, d) (by simp)
  have hlo := chain_head_le total (o, d) t hchain hbounds
  simp only [List.map_cons, List.sum_cons] at hlo hsum
  have ho : o = 0 := by omega
  subst ho
  have hdpos : 0 < d.length := by
    have := hdata (0, d) (by simp)
    exact List.length_pos.mpr this
  have hstep : handleBody true maxContentLength none d 0 total =
      some ⟨total, writeBytes (List.replicate (total + 1) 0) 0 d⟩ := by
    unfold handleBody copyChunk
    have hnm : ¬(total ≥ maxContentLength) := by omega
    have hb0 : d.length ≤ total := by omega
    simp [hnm, hb0]
  have hc1 : writeBytes (List.replicate (total + 1) 0) 0 d =
      d ++ List.replicate (total + 1 - d.length) 0 := by
    unfold writeBytes
    simp
  have hc1len : (d ++ List.replicate (total + 1 - d.length) 0).length = total + 1 := by
    simp
    omega
  have hrec := runChunks_attached maxContentLength total t d.length
    (d ++ List.replicate (total + 1 - d.length) 0) hdpos hc1len (by omega) hchain.tail
    (fun p hp => hbounds p (List.mem_cons_of_mem _ hp))
    (by
      intro b hb
      have := (List.chain'_cons'.mp hchain).1 b hb
      simpa using this)
  refine ⟨⟨total, (d ++ List.replicate (total + 1 - d.length) 0).take d.length ++
      (t.map fun p => p.2).flatten ++
      (d ++ List.replicate (total + 1 - d.length) 0).drop total⟩, ?_, rfl, ?_⟩
  · unfold runChunks
    simp only [List.foldl_cons, hstep, hc1]
    exact hrec
  · have htk : (d ++ List.replicate (total + 1 - d.length) 0).take d.length = d :=
      List.take_left' rfl
    rw [htk]
    have hlen : (d ++ (t.map fun p => p.2).flatten).length = total := by
      simp [List.length_flatten, List.map_map, Function.comp_def]
      omega
    rw [List.append_assoc, ← List.append_assoc d, List.take_left' hlen]
    simp

/-- Witness for C1: two chunks `[1, 2]` at offset 0 and `[3]` at offset 2,
declared total 3, maximum 10, assemble to `[1, 2, 3]`. -/
theorem chunked_body_assembly_witness :
    ∃ buf, runChunks 10 3 [(0, [1, 2]), (2, [3])] = some buf ∧
      buf.length = 3 ∧
      buf.content.take 3 = ([(0, [1, 2]), (2, [3])].map fun p => p.2).flatten :=
  chunked_body_assembly 10 3 [(0, [1, 2]), (2, [3])] (by decide) (by decide)
    (by simp [List.chain'_cons, List.chain'_singleton]) (by decide) (by decide) (by decide)
